import Mathlib

/-! # Lattice — verification of the core stores and prompt engine

A shallow embedding of the Lattice VS Code extension's core model:
the layout store (`src/webview/stores/layout-store.ts`), the generation
store (`src/webview/stores/generation-store.ts`), the prompt engine
(`src/webview/lib/prompt-engine.ts`), the page-level generation action
(`src/webview/components/toolbar/Toolbar.tsx`) and the OpenAI provider
(`src/extension/services/openai-provider.ts`).

JavaScript plain objects used as string-keyed dictionaries are modelled as
association lists (`JsRecord`) in insertion order, mirroring JS semantics:
`{...o, [k]: v}` replaces an existing key in place or appends a fresh key at
the end, `delete o[k]` removes the binding, and `Object.values` enumerates
values in insertion order.  JS numbers that the code only ever treats with
integer arithmetic (coordinates, sizes, order indices, token counts,
timestamps) are modelled as `Int`.  Nondeterministic inputs (`nanoid()`
fresh identifiers, `Date.now()` timestamps) are passed as explicit
parameters.
-/

/-- A JavaScript object used as a string-keyed dictionary: an association
list in key-insertion order. -/
abbrev JsRecord (V : Type) : Type := List (String × V)

/-- Property access `o[k]`: the value at the first binding of `k`, if any. -/
def jget {V : Type} : JsRecord V → String → Option V
  | [], _ => none
  | (k', v) :: t, k => if k' = k then some v else jget t k

/-- Object spread update `{...o, [k]: v}`: replace the binding of `k` in
place, or append it when the key is fresh. -/
def jset {V : Type} : JsRecord V → String → V → JsRecord V
  | [], k, v => [(k, v)]
  | (k', v') :: t, k, v => if k' = k then (k, v) :: t else (k', v') :: jset t k v

/-- `delete o[k]`: drop the binding of `k`. -/
def jdel {V : Type} : JsRecord V → String → JsRecord V
  | [], _ => []
  | (k', v') :: t, k => if k' = k then jdel t k else (k', v') :: jdel t k

/-- `Object.values(o)`, in insertion order. -/
def jvalues {V : Type} (r : JsRecord V) : List V := r.map Prod.snd

/-- The list of keys of a record, in insertion order. -/
def jkeys {V : Type} (r : JsRecord V) : List String := r.map Prod.fst

@[simp] theorem jget_nil {V : Type} (k : String) : jget ([] : JsRecord V) k = none := rfl

@[simp] theorem jget_cons {V : Type} (k' k : String) (v : V) (t : JsRecord V) :
    jget ((k', v) :: t) k = if k' = k then some v else jget t k := rfl

theorem jget_jset {V : Type} (r : JsRecord V) (k : String) (v : V) (k' : String) :
    jget (jset r k v) k' = if k = k' then some v else jget r k' := by
  induction r with
  | nil => by_cases h : k = k' <;> simp [jset, h]
  | cons hd t ih =>
    obtain ⟨k₀, v₀⟩ := hd
    by_cases h₀ : k₀ = k
    · subst h₀
      by_cases h₁ : k₀ = k' <;> simp [jset, h₁]
    · by_cases h₁ : k₀ = k'
      · subst h₁
        simp [jset, h₀, Ne.symm h₀]
      · simp [jset, h₀, h₁, ih]

@[simp] theorem jget_jset_self {V : Type} (r : JsRecord V) (k : String) (v : V) :
    jget (jset r k v) k = some v := by
  simp [jget_jset]

theorem jget_jset_ne {V : Type} (r : JsRecord V) (k : String) (v : V) (k' : String)
    (h : k ≠ k') : jget (jset r k v) k' = jget r k' := by
  simp [jget_jset, h]

theorem jget_jdel {V : Type} (r : JsRecord V) (k k' : String) :
    jget (jdel r k) k' = if k = k' then none else jget r k' := by
  induction r with
  | nil => by_cases h : k = k' <;> simp [jdel, h]
  | cons hd t ih =>
    obtain ⟨k₀, v₀⟩ := hd
    by_cases h₀ : k₀ = k
    · subst h₀
      by_cases h₁ : k₀ = k'
      · subst h₁
        simp [jdel, ih]
      · simp [jdel, ih, h₁]
    · by_cases h₁ : k₀ = k'
      · subst h₁
        simp [jdel, h₀, ih, Ne.symm h₀]
      · simp [jdel, h₀, h₁, ih]

theorem length_jset_of_jget_none {V : Type} (r : JsRecord V) (k : String) (v : V)
    (h : jget r k = none) : (jset r k v).length = r.length + 1 := by
  induction r with
  | nil => simp [jset]
  | cons hd t ih =>
    obtain ⟨k₀, v₀⟩ := hd
    by_cases h₀ : k₀ = k
    · simp [h₀] at h
    · simp only [jget_cons, if_neg h₀] at h
      simp [jset, h₀, ih h]

/-! ## Data model (`src/shared/types.ts`) -/

/-- `InteractionStates` from `src/shared/types.ts`. -/
structure InteractionStates where
  hover : Option String := none
  loading : Option String := none
  error : Option String := none
  empty : Option String := none
  success : Option String := none
deriving DecidableEq, Repr

/-- `BoxSpec` from `src/shared/types.ts`. -/
structure BoxSpec where
  intent : String
  interactions : InteractionStates
  dataShape : Option String := none
  behavior : Option String := none
  refinements : List String
deriving DecidableEq, Repr

/-- Child layout direction (`'row' | 'column'`). -/
inductive Direction where
  | row
  | column
deriving DecidableEq, Repr

/-- `Box` from `src/shared/types.ts`.  Numeric fields are JS numbers that the
code only manipulates with integer arithmetic; they are modelled as `Int`.
`parentId = none` models `null`; optional fields model `undefined`. -/
structure Box where
  id : String
  label : String
  order : Int
  grow : Int
  basis : Option String := none
  x : Int
  y : Int
  width : Int
  height : Int
  direction : Direction
  gap : Int
  padding : Int
  parentId : Option String
  childIds : List String
  spec : Option BoxSpec
  sharedComponentId : Option String := none
deriving DecidableEq, Repr

/-- `SharedComponent` from `src/shared/types.ts`. -/
structure SharedComponent where
  id : String
  name : String
  spec : BoxSpec
  latestCode : Option String := none
  instanceIds : List String
deriving DecidableEq, Repr

/-- `Page` from `src/shared/types.ts`. -/
structure Page where
  id : String
  name : String
  route : Option String := none
  rootDirection : Direction
  boxIds : List String
deriving DecidableEq, Repr

/-- `GenerationVersion` from `src/shared/types.ts`.  The timestamp
(`Date.now()`) is an integer number of milliseconds. -/
structure GenerationVersion where
  id : String
  code : String
  prompt : String
  timestamp : Int
  provider : String
  model : String
deriving DecidableEq, Repr

/-- `GenerationResult` from `src/shared/types.ts`: current version plus the
stack of superseded versions, most recent first. -/
structure GenerationResult where
  boxId : String
  current : GenerationVersion
  history : List GenerationVersion
deriving DecidableEq, Repr

/-! ## Layout store (`src/webview/stores/layout-store.ts`) -/

/-- The layout store's state: `boxes: Record<string, Box>`. -/
structure LayoutState where
  boxes : JsRecord Box
deriving DecidableEq, Repr

/-- `DEFAULT_WIDTH` from the layout store. -/
def DEFAULT_WIDTH : Int := 320

/-- `DEFAULT_HEIGHT` from the layout store. -/
def DEFAULT_HEIGHT : Int := 200

/-- `STAGGER_OFFSET` from the layout store. -/
def STAGGER_OFFSET : Int := 40

/-- `createEmptyBox` from the layout store.  The fresh `nanoid()` identifier
is passed explicitly as `id`. -/
def createEmptyBox (id : String) (parentId : Option String) (order : Int)
    (x : Int := 80) (y : Int := 80) : Box :=
  { id := id
    label := ""
    order := order
    grow := 1
    x := x
    y := y
    width := DEFAULT_WIDTH
    height := DEFAULT_HEIGHT
    direction := .column
    gap := 2
    padding := 2
    parentId := parentId
    childIds := []
    spec := none }

/-- The number of siblings `addBox`/`duplicateBox` count: for a truthy
`parentId`, the parent's `childIds` (`state.boxes[parentId]?.childIds ?? []`);
otherwise every box in the store whose `parentId` is `null`
(`Object.values(state.boxes).filter((b) => b.parentId === null)`).  The TS
code keeps the two lists themselves (of different element types) and only
reads `.length`; the embedding returns the length directly. -/
def siblingCount (boxes : JsRecord Box) (parentId : Option String) : Nat :=
  match parentId with
  | some pid =>
    -- JS truthiness: the empty string is falsy and selects the root branch.
    if pid ≠ "" then ((jget boxes pid).map Box.childIds).getD [] |>.length
    else ((jvalues boxes).filter (fun b => b.parentId = none)).length
  | none => ((jvalues boxes).filter (fun b => b.parentId = none)).length

/-- `addBox(pageId, parentId)` from the layout store.  Returns the new box's
identifier together with the new state; the fresh `nanoid()` is the explicit
`newId` parameter.  Note that the TS body never reads `pageId`. -/
def addBox (newId : String) (s : LayoutState) (pageId : String)
    (parentId : Option String := none) : String × LayoutState :=
  let _ := pageId
  let order : Int := (siblingCount s.boxes parentId : Nat)
  -- For top-level boxes, stagger position based on existing count
  let x := 80 + order * STAGGER_OFFSET
  let y := 80 + order * STAGGER_OFFSET
  let box := createEmptyBox newId parentId order x y
  let newBoxes := jset s.boxes box.id box
  -- If it has a parent, add to the parent's childIds
  let newBoxes :=
    match parentId with
    | some pid =>
      if pid ≠ "" then
        match jget newBoxes pid with
        | some p => jset newBoxes pid { p with childIds := p.childIds ++ [box.id] }
        | none => newBoxes
      else newBoxes
    | none => newBoxes
  (box.id, { boxes := newBoxes })

/-- `collectDescendants` inside `removeBox`: depth-first collection of the
subtree rooted at `id`, reading the (still unmodified) box record.  The TS
version accumulates into a `Set` and recurses without a visited check, so it
terminates only on acyclic child graphs; the embedding bounds the recursion
by explicit fuel (`removeBox` passes more fuel than any acyclic state needs)
and returns a list — duplicates are harmless because deletion is
idempotent. -/
def collectDescendants (boxes : JsRecord Box) : Nat → String → List String
  | 0, id => [id]
  | fuel + 1, id =>
    id :: (match jget boxes id with
      | some b => b.childIds.flatMap (collectDescendants boxes fuel)
      | none => [])

/-- `removeBox(boxId)` from the layout store. -/
def removeBox (s : LayoutState) (boxId : String) : LayoutState :=
  match jget s.boxes boxId with
  | none => s
  | some box =>
    -- Recursively collect all descendant IDs, then remove them
    let toRemove := collectDescendants s.boxes (s.boxes.length + 1) boxId
    let newBoxes := toRemove.foldl (fun bs id => jdel bs id) s.boxes
    -- Remove from parent's childIds (JS truthiness: '' is falsy)
    let newBoxes :=
      match box.parentId with
      | some pid =>
        if pid ≠ "" then
          match jget newBoxes pid with
          | some p =>
            jset newBoxes pid
              { p with childIds := p.childIds.filter (fun id => id ≠ boxId) }
          | none => newBoxes
        else newBoxes
      | none => newBoxes
    { boxes := newBoxes }

/-- `childIds.splice(index, 0, a)`: insert at `index`, or append when the
index is at or past the end (JS `splice` clamps). -/
def spliceInsert {α : Type} (l : List α) (i : Nat) (a : α) : List α :=
  l.take i ++ a :: l.drop i

/-- `moveBox(boxId, newParentId, index)` from the layout store. -/
def moveBox (s : LayoutState) (boxId : String) (newParentId : Option String)
    (index : Nat) : LayoutState :=
  match jget s.boxes boxId with
  | none => s
  | some box =>
    -- Remove from old parent's childIds
    let newBoxes :=
      match box.parentId with
      | some pid =>
        if pid ≠ "" then
          match jget s.boxes pid with
          | some p =>
            jset s.boxes pid
              { p with childIds := p.childIds.filter (fun id => id ≠ boxId) }
          | none => s.boxes
        else s.boxes
      | none => s.boxes
    -- Add to new parent's childIds
    let newBoxes :=
      match newParentId with
      | some pid =>
        if pid ≠ "" then
          match jget newBoxes pid with
          | some p =>
            jset newBoxes pid
              { p with childIds := spliceInsert p.childIds index boxId }
          | none => newBoxes
        else newBoxes
      | none => newBoxes
    -- Update the box's parentId and order
    let newBoxes :=
      match jget newBoxes boxId with
      | some b =>
        jset newBoxes boxId { b with parentId := newParentId, order := (index : Int) }
      | none => newBoxes
    { boxes := newBoxes }

/-- A `Partial<Box>` patch: every field optional. -/
structure BoxPatch where
  id : Option String := none
  label : Option String := none
  order : Option Int := none
  grow : Option Int := none
  basis : Option (Option String) := none
  x : Option Int := none
  y : Option Int := none
  width : Option Int := none
  height : Option Int := none
  direction : Option Direction := none
  gap : Option Int := none
  padding : Option Int := none
  parentId : Option (Option String) := none
  childIds : Option (List String) := none
  spec : Option (Option BoxSpec) := none
  sharedComponentId : Option (Option String) := none
deriving DecidableEq, Repr

/-- Object spread `{...box, ...patch}`. -/
def applyPatch (b : Box) (p : BoxPatch) : Box :=
  { id := p.id.getD b.id
    label := p.label.getD b.label
    order := p.order.getD b.order
    grow := p.grow.getD b.grow
    basis := p.basis.getD b.basis
    x := p.x.getD b.x
    y := p.y.getD b.y
    width := p.width.getD b.width
    height := p.height.getD b.height
    direction := p.direction.getD b.direction
    gap := p.gap.getD b.gap
    padding := p.padding.getD b.padding
    parentId := p.parentId.getD b.parentId
    childIds := p.childIds.getD b.childIds
    spec := p.spec.getD b.spec
    sharedComponentId := p.sharedComponentId.getD b.sharedComponentId }

/-- `updateBox(boxId, patch)` from the layout store:
`{ ...box, ...patch, id: boxId }` — the identifier is never overwritten. -/
def updateBox (s : LayoutState) (boxId : String) (patch : BoxPatch) : LayoutState :=
  match jget s.boxes boxId with
  | none => s
  | some box =>
    { boxes := jset s.boxes boxId { applyPatch box patch with id := boxId } }

/-- `updateBoxPosition(boxId, x, y)` from the layout store. -/
def updateBoxPosition (s : LayoutState) (boxId : String) (x y : Int) : LayoutState :=
  match jget s.boxes boxId with
  | none => s
  | some box => { boxes := jset s.boxes boxId { box with x := x, y := y } }

/-- `updateBoxSize(boxId, width, height)` from the layout store: clamps to
the documented minimums 120×60. -/
def updateBoxSize (s : LayoutState) (boxId : String) (width height : Int) : LayoutState :=
  match jget s.boxes boxId with
  | none => s
  | some box =>
    { boxes := jset s.boxes boxId
        { box with width := max 120 width, height := max 60 height } }

/-- `updateBoxSpec(boxId, spec)` from the layout store. -/
def updateBoxSpec (s : LayoutState) (boxId : String) (spec : Option BoxSpec) : LayoutState :=
  match jget s.boxes boxId with
  | none => s
  | some box => { boxes := jset s.boxes boxId { box with spec := spec } }

/-- `duplicateBox(boxId)` from the layout store.  The fresh `nanoid()` is the
explicit `newId` parameter; returns the id the TS function returns together
with the new state. -/
def duplicateBox (newId : String) (s : LayoutState) (boxId : String) :
    String × LayoutState :=
  match jget s.boxes boxId with
  | none => (boxId, s)
  | some original =>
    let siblings := siblingCount s.boxes original.parentId
    let dup : Box :=
      { original with
        id := newId
        label := if original.label ≠ "" then original.label ++ " (copy)" else ""
        order := (siblings : Nat)
        -- Offset position for top-level duplicates
        x := if original.parentId = none then original.x + STAGGER_OFFSET else original.x
        y := if original.parentId = none then original.y + STAGGER_OFFSET else original.y
        childIds := []  -- Don't deep-copy children
        spec := original.spec }
    let newBoxes := jset s.boxes newId dup
    let newBoxes :=
      match dup.parentId with
      | some pid =>
        if pid ≠ "" then
          match jget newBoxes pid with
          | some p => jset newBoxes pid { p with childIds := p.childIds ++ [newId] }
          | none => newBoxes
        else newBoxes
      | none => newBoxes
    (newId, { boxes := newBoxes })

/-! ## Generation store (`src/webview/stores/generation-store.ts`) -/

/-- `AssembledPrompt` from the generation store. -/
structure AssembledPrompt where
  systemPrompt : String
  userPrompt : String
  target : String
  targetId : String
  targetName : String
  timestamp : Int
deriving DecidableEq, Repr

/-- The generation store's state. -/
structure GenState where
  results : JsRecord GenerationResult
  generating : JsRecord Bool
  streamBuffers : JsRecord String
  /-- Maps requestId → boxId for routing streaming responses. -/
  requestBoxMap : JsRecord String
  /-- The most recently assembled prompt (for display in the Output Panel). -/
  lastPrompt : Option AssembledPrompt
deriving DecidableEq, Repr

/-- The store's initial state. -/
def GenState.init : GenState :=
  { results := [], generating := [], streamBuffers := [], requestBoxMap := []
    lastPrompt := none }

/-- `startGeneration(boxId)`. -/
def startGeneration (s : GenState) (boxId : String) : GenState :=
  { s with
    generating := jset s.generating boxId true
    streamBuffers := jset s.streamBuffers boxId "" }

/-- `appendChunk(boxId, text)`:
`streamBuffers[boxId] = (streamBuffers[boxId] ?? '') + text`. -/
def appendChunk (s : GenState) (boxId text : String) : GenState :=
  { s with
    streamBuffers :=
      jset s.streamBuffers boxId ((jget s.streamBuffers boxId).getD "" ++ text) }

/-- `completeGeneration(boxId, code, prompt, provider, model)`.  The fresh
`nanoid()` version identifier and the `Date.now()` timestamp are the explicit
`newId` and `ts` parameters. -/
def completeGeneration (s : GenState) (boxId code prompt provider model : String)
    (newId : String) (ts : Int) : GenState :=
  let version : GenerationVersion :=
    { id := newId, code := code, prompt := prompt, timestamp := ts
      provider := provider, model := model }
  let history :=
    match jget s.results boxId with
    | some existing => existing.current :: existing.history
    | none => []
  { s with
    results :=
      jset s.results boxId { boxId := boxId, current := version, history := history }
    generating := jset s.generating boxId false
    streamBuffers := jset s.streamBuffers boxId "" }

/-- `failGeneration(boxId)`. -/
def failGeneration (s : GenState) (boxId : String) : GenState :=
  { s with
    generating := jset s.generating boxId false
    streamBuffers := jset s.streamBuffers boxId "" }

/-- `revertToVersion(boxId, versionId)`.  The TS code computes
`versionIndex = history.findIndex(v => v.id === versionId)`, returns the
state unchanged when it is `-1`, and otherwise reads
`targetVersion = history[versionIndex]`; the embedding fuses the two into
`List.find?`, which returns exactly the element at the first matching
index. -/
def revertToVersion (s : GenState) (boxId versionId : String) : GenState :=
  match jget s.results boxId with
  | none => s
  | some result =>
    match result.history.find? (fun v => v.id = versionId) with
    | none => s
    | some targetVersion =>
      let newHistory :=
        result.current :: result.history.filter (fun v => v.id ≠ versionId)
      { s with
        results :=
          jset s.results boxId
            { result with current := targetVersion, history := newHistory } }

/-- `setLastPrompt(prompt)`. -/
def setLastPrompt (s : GenState) (prompt : AssembledPrompt) : GenState :=
  { s with lastPrompt := some prompt }

/-- `mapRequestToBox(requestId, boxId)`. -/
def mapRequestToBox (s : GenState) (requestId boxId : String) : GenState :=
  { s with requestBoxMap := jset s.requestBoxMap requestId boxId }

/-- `clearRequest(requestId)`: object destructuring
`const { [requestId]: _, ...rest } = s.requestBoxMap` drops the binding. -/
def clearRequest (s : GenState) (requestId : String) : GenState :=
  { s with requestBoxMap := jdel s.requestBoxMap requestId }

/-! ## Page-level generation (`src/webview/components/toolbar/Toolbar.tsx`) -/

/-- The generation-store mutations performed by `handleGeneratePage` in
`Toolbar.tsx` after the prompt has been assembled and stored: read
`firstBoxId = activePage.boxIds[0]`, call `startGeneration` for every id in
`activePage.boxIds`, and, when `firstBoxId` is truthy (present and not the
empty string), map the single outbound `requestId` to it. -/
def handleGeneratePageTargets (s : GenState) (boxIds : List String)
    (requestId : String) : GenState :=
  let firstBoxId := boxIds.head?
  let s := boxIds.foldl (fun acc boxId => startGeneration acc boxId) s
  match firstBoxId with
  | some fid => if fid ≠ "" then mapRequestToBox s requestId fid else s
  | none => s

/-! ## Prompt engine (`src/webview/lib/prompt-engine.ts`) -/

/-- The `walk` closure inside `collectReferencedSharedComponents`:
depth-first, the node's own `sharedComponentId` first (JS truthiness: the
empty string is falsy), then the children in `childIds` order.  The `seen`
`Set` is modelled as a list used only for membership; the accumulator pairs
it with the `result` array.  The TS recursion terminates only on acyclic
child graphs, so the embedding bounds the depth by explicit fuel. -/
def collectWalk (sharedComponents : JsRecord SharedComponent)
    (allBoxes : JsRecord Box) :
    Nat → (List String × List SharedComponent) → Box →
      (List String × List SharedComponent)
  | 0, acc, _ => acc
  | fuel + 1, acc, box =>
    let acc :=
      match box.sharedComponentId with
      | some scid =>
        if scid ≠ "" ∧ scid ∉ acc.1 then
          (acc.1 ++ [scid], acc.2 ++ (jget sharedComponents scid).toList)
        else acc
      | none => acc
    box.childIds.foldl
      (fun acc childId =>
        match jget allBoxes childId with
        | some child => collectWalk sharedComponents allBoxes fuel acc child
        | none => acc)
      acc

/-- `collectReferencedSharedComponents(topBoxes, allBoxes, sharedComponents)`:
returns `[]` when the optional `sharedComponents` record is absent, otherwise
walks every top box in order. -/
def collectReferencedSharedComponents (fuel : Nat) (topBoxes : List Box)
    (allBoxes : JsRecord Box)
    (sharedComponents : Option (JsRecord SharedComponent)) :
    List SharedComponent :=
  match sharedComponents with
  | none => []
  | some sc =>
    (topBoxes.foldl (fun acc box => collectWalk sc allBoxes fuel acc box)
      ([], [])).2

/-- The `topLevelBoxes` computation at the start of `buildPagePrompt`:
`page.boxIds.map(id => allBoxes[id]).filter(Boolean).sort((a, b) => a.order - b.order)`
— a stable ascending sort by the `order` field. -/
def pageTopLevelBoxes (page : Page) (allBoxes : JsRecord Box) : List Box :=
  (page.boxIds.filterMap (jget allBoxes)).mergeSort
    (fun a b => a.order ≤ b.order)

/-- `sharedComponentsSection(components)`: one block (`### name`, optional
intent and implementation lines, usage count) per collected component. -/
def sharedComponentsSection (components : List SharedComponent) : String :=
  let lines :=
    ["## Shared Components\n\nThe following shared components are referenced on this page:"]
      ++ components.flatMap (fun sc =>
        ["### " ++ sc.name]
          ++ (if sc.spec.intent ≠ "" then ["Intent: " ++ sc.spec.intent] else [])
          ++ (match sc.latestCode with
              | some code =>
                if code ≠ "" then
                  ["Existing implementation:\n```\n" ++ code ++ "\n```"]
                else []
              | none => [])
          ++ ["Used " ++ toString sc.instanceIds.length ++ " time(s) on this page."])
  String.intercalate "\n\n" lines

/-! Specification-side definitions for the shared-component collection
(`dedupFirstOccurrence`, `preorderSharedRefs`) — written from the spec's
words ("deduplicated by identifier, first-seen order", "first-occurrence in
a pre-order traversal of the supplied root list") to be compared with the
source-translated `collectReferencedSharedComponents`. -/

/-- First-occurrence deduplication relative to identifiers already seen. -/
def dedupFrom (seen : List String) : List String → List String
  | [] => []
  | x :: t => if x ∈ seen then dedupFrom seen t else x :: dedupFrom (seen ++ [x]) t

/-- First-occurrence deduplication of a list of identifiers. -/
def dedupFirstOccurrence (l : List String) : List String := dedupFrom [] l

/-- The pre-order sequence of (truthy) shared-component identifiers
referenced by the tree hanging off `box`: the node's own reference first,
then the children in `childIds` order, resolved through `allBoxes` and
bounded by the same fuel as `collectWalk`. -/
def preorderSharedRefs (allBoxes : JsRecord Box) : Nat → Box → List String
  | 0, _ => []
  | fuel + 1, box =>
    (match box.sharedComponentId with
      | some scid => if scid ≠ "" then [scid] else []
      | none => [])
      ++ box.childIds.flatMap (fun childId =>
        match jget allBoxes childId with
        | some child => preorderSharedRefs allBoxes fuel child
        | none => [])

/-- One step of first-occurrence collection: record a newly seen identifier
and push the component it resolves to, if any. -/
def addSharedRef (sharedComponents : JsRecord SharedComponent)
    (acc : List String × List SharedComponent) (scid : String) :
    List String × List SharedComponent :=
  if scid ∈ acc.1 then acc
  else (acc.1 ++ [scid], acc.2 ++ (jget sharedComponents scid).toList)

/-! ## OpenAI provider (`src/extension/services/openai-provider.ts`)

The provider is `async` network code; the embedding abstracts the transport:
the single `fetch` the method performs is modelled by passing in the
`FetchResponse` the network would produce, and the observable effect of the
call is returned as an explicit trace — the list of HTTP calls the provider
made (with the request body's `stream` flag and `model`) and the list of
`onChunk` emissions.  `JSON.parse` of a streaming event record plus the
`choices?.[0]?.delta?.content` / `usage` field accesses are abstracted into
a `parseEvent` parameter (`none` models a parse failure, caught and
skipped). -/

/-- Token usage as surfaced in `GenerateResponse`. -/
structure Usage where
  promptTokens : Int
  completionTokens : Int
deriving DecidableEq, Repr

/-- `GenerateRequest` from `src/shared/types.ts` (the fields
`OpenAIProvider.generate` reads; `temperature`/`maxTokens` only flow into
the request body and are dropped from the modelled call trace).  `model = ""`
models the falsy unset model string. -/
structure GenerateRequest where
  prompt : String
  systemPrompt : String
  model : String
  stream : Option Bool := none
deriving DecidableEq, Repr

/-- `GenerateResponse` from `src/shared/types.ts`. -/
structure GenerateResponse where
  code : String
  usage : Option Usage := none
deriving DecidableEq, Repr

/-- The data `_handleStream` extracts from one successfully parsed SSE
event record: `choices?.[0]?.delta?.content` and the optional `usage`
counters. -/
structure SSEEvent where
  delta : Option String := none
  usage : Option Usage := none
deriving DecidableEq, Repr

/-- One HTTP POST to the OpenAI endpoint, as recorded in the call trace:
the request body's `stream` flag and `model`. -/
structure HttpCall where
  stream : Bool
  model : String
deriving DecidableEq, Repr

/-- The response of the single `fetch`: HTTP status, the error body used on
non-2xx statuses (with the `JSON.parse(errorBody).error?.message` outcome
pre-extracted, `none` covering both a parse failure and a falsy message),
the streamed body as the list of decoded chunks the reader yields, and the
parsed JSON fields `_handleNonStream` would read. -/
structure FetchResponse where
  ok : Bool
  status : Nat
  errorBody : String := ""
  errorMessageParsed : Option String := none
  streamChunks : List String := []
  nonStreamContent : Option String := none
  nonStreamUsage : Option Usage := none
deriving DecidableEq, Repr

/-- `defaultModel` of `OpenAIProvider`. -/
def openAIDefaultModel : String := "gpt-4o"

/-- JS `String.prototype.trim()`: strip leading and trailing whitespace.
(Defined by structural recursion over the character list so that concrete
evaluations reduce in the kernel.) -/
def jsTrim (s : String) : String :=
  String.mk (((s.data.dropWhile Char.isWhitespace).reverse.dropWhile
    Char.isWhitespace).reverse)

/-- JS `\w` on ASCII: `[A-Za-z0-9_]`. -/
def isWordChar (c : Char) : Bool := c.isAlphanum || c = '_'

/-- Whether `cs` is exactly the tail `\n```` ``` ``\s*$` of the fence
regex: a newline, three backticks, then only whitespace to the end. -/
def isFenceEnd (cs : List Char) : Bool :=
  match cs with
  | '\n' :: '`' :: '`' :: '`' :: rest => rest.all Char.isWhitespace
  | _ => false

/-- The lazy group `([\s\S]*?)` of the fence regex followed by the anchored
tail: the shortest prefix of `cs` after which `isFenceEnd` holds. -/
def fenceInner : List Char → Option (List Char)
  | [] => none
  | c :: rest =>
    if isFenceEnd (c :: rest) then some []
    else (fenceInner rest).map (fun inner => c :: inner)

/-- The regex `/^```(?:\w+)?\s*\n([\s\S]*?)\n```\s*$/` applied to an
already-trimmed string: strip the opening fence (optional language word,
then whitespace whose consumed part must end in a newline), then the lazy
inner group up to the closing fence. -/
def fenceMatch (s : String) : Option String :=
  match s.data with
  | '`' :: '`' :: '`' :: rest =>
    let afterWord := rest.dropWhile isWordChar
    let ws := afterWord.takeWhile Char.isWhitespace
    let body := afterWord.drop ws.length
    -- `\s*\n` consumes the whitespace run up to (and including) its last
    -- newline; no match if the run contains none.
    match (List.range (ws.length)).filter (fun i => ws.getD i ' ' = '\n') |>.max? with
    | none => none
    | some lastNl =>
      (fenceInner (ws.drop (lastNl + 1) ++ body)).map (fun inner =>
        String.mk inner)
  | _ => none

/-- `_stripCodeFences(code)`. -/
def stripCodeFences (code : String) : String :=
  let trimmed := jsTrim code
  match fenceMatch trimmed with
  | some inner => inner
  | none => trimmed

/-- The accumulator of `_handleStream`'s read loop: the SSE line `buffer`,
the accumulated `fullContent`, the latest `usage`, and the trace of
`onChunk` emissions (in call order). -/
structure StreamAcc where
  buffer : String
  fullContent : String
  usage : Option Usage
  emitted : List String
deriving DecidableEq, Repr

/-- The body of `_handleStream`'s `for (const line of lines)` loop: skip
blank lines and lines not starting with `data: `, strip the prefix, skip
`[DONE]`, otherwise parse the record (a parse failure is skipped), append a
truthy delta to `fullContent` and emit it via `onChunk`, and take the usage
counters when present. -/
def processSSELine (parseEvent : String → Option SSEEvent) (acc : StreamAcc)
    (line : String) : StreamAcc :=
  let trimmed := jsTrim line
  if trimmed = "" || !trimmed.startsWith "data: " then acc
  else
    let payload := trimmed.drop 6
    if payload = "[DONE]" then acc
    else
      match parseEvent payload with
      | none => acc  -- Skip malformed SSE chunks
      | some ev =>
        let acc :=
          match ev.delta with
          | some d =>
            if d ≠ "" then
              { acc with fullContent := acc.fullContent ++ d
                         emitted := acc.emitted ++ [d] }
            else acc
          | none => acc
        match ev.usage with
        | some u => { acc with usage := some u }
        | none => acc

/-- One iteration of `_handleStream`'s read loop: append the decoded chunk
to the buffer, split into lines, keep the trailing incomplete line in the
buffer, and process the complete lines. -/
def processSSEChunk (parseEvent : String → Option SSEEvent) (acc : StreamAcc)
    (chunk : String) : StreamAcc :=
  let buffer := acc.buffer ++ chunk
  let lines := buffer.splitOn "\n"
  let newBuffer := lines.getLast?.getD ""
  let complete := lines.dropLast
  complete.foldl (processSSELine parseEvent)
    { acc with buffer := newBuffer }

/-- `_handleStream(response, onChunk)`: fold the read loop over the decoded
chunks (a trailing incomplete line left in the buffer when the stream closes
is dropped, as in the source) and strip code fences from the accumulated
content.  Returns the response together with the `onChunk` emission trace. -/
def handleStream (parseEvent : String → Option SSEEvent)
    (chunks : List String) : GenerateResponse × List String :=
  let acc := chunks.foldl (processSSEChunk parseEvent)
    { buffer := "", fullContent := "", usage := none, emitted := [] }
  ({ code := stripCodeFences acc.fullContent, usage := acc.usage }, acc.emitted)

/-- `_handleNonStream(response)`: `choices?.[0]?.message?.content ?? ''`,
fences stripped, with usage copied when the vendor reported it. -/
def handleNonStream (resp : FetchResponse) : GenerateResponse :=
  { code := stripCodeFences (resp.nonStreamContent.getD "")
    usage := resp.nonStreamUsage }

/-- The outcome of `OpenAIProvider.generate`: the settled promise (an
`Except` models `throw`), the trace of HTTP calls performed, and the trace
of `onChunk` emissions. -/
instance {ε α : Type} [DecidableEq ε] [DecidableEq α] :
    DecidableEq (Except ε α) := fun a b =>
  match a, b with
  | .error e, .error e' =>
    if h : e = e' then .isTrue (by rw [h]) else .isFalse (by simp [h])
  | .error _, .ok _ => .isFalse (by simp)
  | .ok _, .error _ => .isFalse (by simp)
  | .ok v, .ok v' =>
    if h : v = v' then .isTrue (by rw [h]) else .isFalse (by simp [h])

structure GenerateOutcome where
  result : Except String GenerateResponse
  calls : List HttpCall
  emitted : List String
deriving DecidableEq, Repr

/-- `OpenAIProvider.generate(request, apiKey, onChunk?)`.  `hasOnChunk`
models `!!onChunk`; the single `fetch` against
`https://api.openai.com/v1/chat/completions` is recorded in the call trace
and answered by `resp`. -/
def openAIGenerate (request : GenerateRequest) (hasOnChunk : Bool)
    (parseEvent : String → Option SSEEvent) (resp : FetchResponse) :
    GenerateOutcome :=
  let shouldStream := request.stream ≠ some false && hasOnChunk
  let model := if request.model ≠ "" then request.model else openAIDefaultModel
  let calls := [{ stream := shouldStream, model := model : HttpCall }]
  if !resp.ok then
    let errorMessage :=
      match resp.errorMessageParsed with
      | some m => m
      | none =>
        "OpenAI API error: " ++ toString resp.status ++ " — "
          ++ (resp.errorBody.take 200)
    { result := .error errorMessage, calls := calls, emitted := [] }
  else if shouldStream then
    let hs := handleStream parseEvent resp.streamChunks
    { result := .ok hs.1, calls := calls, emitted := hs.2 }
  else
    { result := .ok (handleNonStream resp), calls := calls, emitted := [] }

/-! ## Claim C1 — `appendChunk` on a target with no active generation -/

/-- C1 counterexample: in the initial store state the target `"box1"` has no
active generation (`generating["box1"]` is not `true` — there is no entry at
all), yet `appendChunk("box1", "hello")` is not a no-op: the state changes
and the target's buffer becomes `"hello"` rather than remaining
absent/empty.  The TS `appendChunk` appends unconditionally — it never
consults the `generating` flag. -/
theorem appendChunk_not_noop_cex :
    jget GenState.init.generating "box1" ≠ some true
      ∧ appendChunk GenState.init "box1" "hello" ≠ GenState.init
      ∧ jget (appendChunk GenState.init "box1" "hello").streamBuffers "box1"
          = some "hello" := by
  refine ⟨by decide, ?_, by decide⟩
  intro h
  have : jget (appendChunk GenState.init "box1" "hello").streamBuffers "box1"
      = jget GenState.init.streamBuffers "box1" := by rw [h]
  simp [appendChunk, GenState.init] at this

/-- C1 amended: for a target with no active generation, `appendChunk` is
*not* a no-op — it appends `text` to the (absent-as-empty) buffer
unconditionally, leaving `results`, `generating`, `requestBoxMap` and
`lastPrompt` untouched. -/
theorem appendChunk_appends_without_generating (s : GenState) (boxId text : String)
    (_h : jget s.generating boxId ≠ some true) :
    jget (appendChunk s boxId text).streamBuffers boxId
        = some ((jget s.streamBuffers boxId).getD "" ++ text)
      ∧ (appendChunk s boxId text).results = s.results
      ∧ (appendChunk s boxId text).generating = s.generating
      ∧ (appendChunk s boxId text).requestBoxMap = s.requestBoxMap
      ∧ (appendChunk s boxId text).lastPrompt = s.lastPrompt := by
  refine ⟨?_, rfl, rfl, rfl, rfl⟩
  simp [appendChunk]

/-- C1 amended, witness at a concrete input. -/
theorem appendChunk_appends_without_generating_witness :
    jget (appendChunk GenState.init "box1" "hello").streamBuffers "box1"
        = some ((jget GenState.init.streamBuffers "box1").getD "" ++ "hello")
      ∧ (appendChunk GenState.init "box1" "hello").results = GenState.init.results
      ∧ (appendChunk GenState.init "box1" "hello").generating
          = GenState.init.generating
      ∧ (appendChunk GenState.init "box1" "hello").requestBoxMap
          = GenState.init.requestBoxMap
      ∧ (appendChunk GenState.init "box1" "hello").lastPrompt
          = GenState.init.lastPrompt :=
  appendChunk_appends_without_generating GenState.init "box1" "hello" (by decide)

/-! ## Claim C7 — `failGeneration` clears flags and buffer, never touches
results -/

/-- C7: `failGeneration` clears the target's `generating` flag and stream
buffer and leaves `results` (every target's current version and history),
the request map and the last prompt completely unchanged — no version is
created, so no partial code is ever promoted to current on failure. -/
theorem failGeneration_clears_and_preserves_results (s : GenState) (boxId : String) :
    (failGeneration s boxId).results = s.results
      ∧ jget (failGeneration s boxId).generating boxId = some false
      ∧ jget (failGeneration s boxId).streamBuffers boxId = some ""
      ∧ (failGeneration s boxId).requestBoxMap = s.requestBoxMap
      ∧ (failGeneration s boxId).lastPrompt = s.lastPrompt := by
  refine ⟨rfl, ?_, ?_, rfl, rfl⟩ <;> simp [failGeneration]

/-! ## Claim C8 — layout operations are no-ops on a missing identifier -/

/-- C8: every BoxTree operation invoked with an identifier that is not a key
of `boxes` returns the state unchanged (and `duplicateBox` returns the
missing identifier itself); in the embedding all operations are total, so no
exception is possible. -/
theorem layout_ops_noop_on_missing_id (s : LayoutState) (boxId : String)
    (h : jget s.boxes boxId = none) (newParentId : Option String) (index : Nat)
    (patch : BoxPatch) (x y width height : Int) (spec : Option BoxSpec)
    (newId : String) :
    removeBox s boxId = s
      ∧ moveBox s boxId newParentId index = s
      ∧ updateBox s boxId patch = s
      ∧ updateBoxPosition s boxId x y = s
      ∧ updateBoxSize s boxId width height = s
      ∧ updateBoxSpec s boxId spec = s
      ∧ duplicateBox newId s boxId = (boxId, s) := by
  refine ⟨?_, ?_, ?_, ?_, ?_, ?_, ?_⟩ <;>
    simp [removeBox, moveBox, updateBox, updateBoxPosition, updateBoxSize,
      updateBoxSpec, duplicateBox, h]

/-- C8 witness: all seven operations at a concrete state that lacks the
identifier. -/
theorem layout_ops_noop_on_missing_id_witness :
    removeBox ⟨[]⟩ "ghost" = ⟨[]⟩
      ∧ moveBox ⟨[]⟩ "ghost" none 0 = ⟨[]⟩
      ∧ updateBox ⟨[]⟩ "ghost" {} = ⟨[]⟩
      ∧ updateBoxPosition ⟨[]⟩ "ghost" 1 2 = ⟨[]⟩
      ∧ updateBoxSize ⟨[]⟩ "ghost" 3 4 = ⟨[]⟩
      ∧ updateBoxSpec ⟨[]⟩ "ghost" none = ⟨[]⟩
      ∧ duplicateBox "fresh" ⟨[]⟩ "ghost" = ("ghost", ⟨[]⟩) :=
  layout_ops_noop_on_missing_id ⟨[]⟩ "ghost" rfl none 0 {} 1 2 3 4 none "fresh"

/-! ## Claim C10 — `addBox` with no parent counts parentless boxes
store-wide and ignores `pageId` -/

/-- C10: `addBox` with `parentId = null` computes the new root box's `order`
as the count of *all* parentless boxes in the entire store (the box record
is shared across every page and boxes carry no page field), places it at the
staggered position `x = y = 80 + 40 · count`, and never reads its `pageId`
argument: any two page identifiers produce identical outcomes. -/
theorem addBox_root_ignores_pageId (s : LayoutState) (pageId pageId' newId : String) :
    addBox newId s pageId none = addBox newId s pageId' none
      ∧ (addBox newId s pageId none).1 = newId
      ∧ jget (addBox newId s pageId none).2.boxes newId
          = some (createEmptyBox newId none
              (((jvalues s.boxes).filter (fun b => b.parentId = none)).length)
              (80 + 40 * ((jvalues s.boxes).filter
                  (fun b => b.parentId = none)).length)
              (80 + 40 * ((jvalues s.boxes).filter
                  (fun b => b.parentId = none)).length)) := by
  refine ⟨rfl, rfl, ?_⟩
  simp [addBox, siblingCount, createEmptyBox, STAGGER_OFFSET, Int.mul_comm]

/-! ## Claim C2 — `removeBox` and the order-density invariant -/

/-- The sibling group of a parent reference: every box in the store whose
`parentId` equals it (`none` is the page-root group). -/
def siblingGroup (boxes : JsRecord Box) (parent : Option String) : List Box :=
  (jvalues boxes).filter (fun b => b.parentId = parent)

/-- A sibling group has dense order fields `0..n-1`: its multiset of `order`
values is exactly `{0, 1, …, n-1}`. -/
def denseOrders (l : List Box) : Prop :=
  (l.map Box.order : Multiset Int)
    = (((List.range l.length).map (fun k => (k : Int))) : Multiset Int)

instance (l : List Box) : Decidable (denseOrders l) := by
  unfold denseOrders; infer_instance

/-- Every sibling group of the store is dense. -/
def allSiblingGroupsDense (boxes : JsRecord Box) : Prop :=
  ∀ parent : Option String, denseOrders (siblingGroup boxes parent)

/-- A concrete store with three page-root boxes of orders 0, 1, 2. -/
def denseRootsState : LayoutState :=
  ⟨[("a", createEmptyBox "a" none 0), ("b", createEmptyBox "b" none 1),
    ("c", createEmptyBox "c" none 2)]⟩

/-- C2 counterexample: in `denseRootsState` every sibling group is dense and
`"b"` exists, yet after `removeBox("b")` the root sibling group has orders
`{0, 2}` — `removeBox` deletes the subtree and unlinks the parent's child
list but never renumbers the siblings left behind, so density is broken. -/
theorem removeBox_breaks_density_cex :
    allSiblingGroupsDense denseRootsState.boxes
      ∧ (jget denseRootsState.boxes "b").isSome
      ∧ ¬ denseOrders (siblingGroup (removeBox denseRootsState "b").boxes none) := by
  refine ⟨?_, by decide, by decide⟩
  intro parent
  match parent with
  | none => decide
  | some pid =>
    have h0 : siblingGroup denseRootsState.boxes (some pid) = [] := rfl
    rw [h0]
    decide

/-- `jget` through a left fold of deletions: a key is gone exactly when it
was among the deleted keys. -/
theorem jget_foldl_jdel {V : Type} (l : List String) (r : JsRecord V) (k : String) :
    jget (l.foldl (fun bs id => jdel bs id) r) k
      = if k ∈ l then none else jget r k := by
  induction l generalizing r with
  | nil => simp
  | cons a t ih =>
    simp only [List.foldl_cons, ih, jget_jdel, List.mem_cons]
    by_cases h₁ : k ∈ t
    · simp [h₁]
    · by_cases h₂ : a = k
      · simp [h₂, h₁]
      · simp [h₁, h₂, Ne.symm h₂]

/-- A key still bound after a fold of deletions was bound to the same value
before. -/
theorem jget_foldl_jdel_some {V : Type} (l : List String) (r : JsRecord V)
    (k : String) (v : V)
    (h : jget (l.foldl (fun bs id => jdel bs id) r) k = some v) :
    jget r k = some v := by
  rw [jget_foldl_jdel] at h
  by_cases hm : k ∈ l
  · simp [hm] at h
  · simpa [hm] using h

/-- Survivors of the parent-childIds rewrite keep their order and parent:
only the `childIds` field of the parent entry changes. -/
theorem survivor_of_childIds_rewrite (r : JsRecord Box) (pid : String) (p : Box)
    (hp : jget r pid = some p) (cf : List String) (k : String) (v : Box)
    (h : jget (jset r pid { p with childIds := cf }) k = some v) :
    ∃ v₀, jget r k = some v₀ ∧ v.order = v₀.order ∧ v.parentId = v₀.parentId := by
  rw [jget_jset] at h
  by_cases hpk : pid = k
  · subst hpk
    rw [if_pos rfl] at h
    cases h
    exact ⟨p, hp, rfl, rfl⟩
  · rw [if_neg hpk] at h
    exact ⟨v, h, rfl, rfl⟩

/-- C2 amended: `removeBox` never renumbers — every box that survives a
`removeBox` call keeps exactly the `order` and `parentId` it had before, so
a gap left in a sibling group's `order` sequence persists and density is not
restored. -/
theorem removeBox_preserves_survivor_orders (s : LayoutState) (boxId id : String)
    (b : Box) (h : jget (removeBox s boxId).boxes id = some b) :
    ∃ b₀, jget s.boxes id = some b₀ ∧ b.order = b₀.order ∧ b.parentId = b₀.parentId := by
  simp only [removeBox] at h
  split at h
  · exact ⟨b, h, rfl, rfl⟩
  · split at h
    · -- parentId = some pid
      split at h
      · -- pid ≠ ""
        split at h
        · -- the parent is still present after deletion: its childIds are
          -- filtered, but order and parentId are untouched.
          rename_i p hp
          obtain ⟨v₀, hv₀, ho, hpp⟩ := survivor_of_childIds_rewrite _ _ _ hp _ _ _ h
          exact ⟨v₀, jget_foldl_jdel_some _ _ _ _ hv₀, ho, hpp⟩
        · exact ⟨b, jget_foldl_jdel_some _ _ _ _ h, rfl, rfl⟩
      · exact ⟨b, jget_foldl_jdel_some _ _ _ _ h, rfl, rfl⟩
    · -- parentId = none
      exact ⟨b, jget_foldl_jdel_some _ _ _ _ h, rfl, rfl⟩

/-- C2 amended, witness: after removing `"b"` from the dense concrete store,
the surviving box `"c"` still has its old order 2 (not renumbered to 1). -/
theorem removeBox_preserves_survivor_orders_witness :
    ((jget (removeBox denseRootsState "b").boxes "c").map Box.order)
      = ((jget denseRootsState.boxes "c").map Box.order) := by
  obtain ⟨b₀, hb, ho, _⟩ := removeBox_preserves_survivor_orders denseRootsState
    "b" "c" (createEmptyBox "c" none 2) (by decide)
  rw [hb]
  have hc : jget (removeBox denseRootsState "b").boxes "c"
      = some (createEmptyBox "c" none 2) := by decide
  rw [hc]
  simpa using ho

/-! ## Claim C3 — where `revertToVersion` re-inserts the previous current -/

/-- A concrete version: the current one. -/
def verCur : GenerationVersion :=
  { id := "cur", code := "c0", prompt := "p0", timestamp := 3, provider := "openai"
    model := "gpt-4o" }

/-- A concrete version: the newer history entry (index 0). -/
def verOne : GenerationVersion :=
  { id := "v1", code := "c1", prompt := "p1", timestamp := 2, provider := "openai"
    model := "gpt-4o" }

/-- A concrete version: the older history entry (index 1). -/
def verTwo : GenerationVersion :=
  { id := "v2", code := "c2", prompt := "p2", timestamp := 1, provider := "openai"
    model := "gpt-4o" }

/-- A concrete generation store with one result for target `"b"`: current
`verCur`, history `[verOne, verTwo]`. -/
def revertState : GenState :=
  { results := [("b", { boxId := "b", current := verCur, history := [verOne, verTwo] })]
    generating := [], streamBuffers := [], requestBoxMap := [], lastPrompt := none }

/-- C3 counterexample: reverting target `"b"` to `"v2"` — which sits at
history index 1 — makes `verTwo` current, but the previously-current version
is inserted at the *front* of the history (index 0), not at the vacated
index 1: the history becomes `[cur, v1]`, whereas the claim predicts
`[v1, cur]`. -/
theorem revertToVersion_front_insert_cex :
    ((jget (revertToVersion revertState "b" "v2").results "b").map
        (fun r => (r.current.id, r.history.map GenerationVersion.id)))
        = some ("v2", ["cur", "v1"])
      ∧ some ("v2", ["cur", "v1"]) ≠ some ("v2", ["v1", "cur"]) := by
  exact ⟨by decide, by decide⟩

/-- C3 amended: `revertToVersion` is a no-op when the target has no result
or `versionId` is absent from its history; when some history entry matches
`versionId`, the first such entry becomes current and the previously-current
version is inserted at the *front* of the history (most-recent-first
position 0, not the vacated index), with every entry matching `versionId`
removed; results of other targets are untouched. -/
theorem revertToVersion_amended (s : GenState) (boxId versionId : String) :
    ((jget s.results boxId = none → revertToVersion s boxId versionId = s)
      ∧ (∀ r, jget s.results boxId = some r →
          r.history.find? (fun v => v.id = versionId) = none →
          revertToVersion s boxId versionId = s))
      ∧ (∀ r tv, jget s.results boxId = some r →
          r.history.find? (fun v => v.id = versionId) = some tv →
          jget (revertToVersion s boxId versionId).results boxId
              = some { r with
                  current := tv
                  history :=
                    r.current :: r.history.filter (fun v => v.id ≠ versionId) }
            ∧ ∀ b, b ≠ boxId →
                jget (revertToVersion s boxId versionId).results b
                  = jget s.results b) := by
  refine ⟨⟨?_, ?_⟩, ?_⟩
  · intro h
    simp [revertToVersion, h]
  · intro r hr hfind
    simp [revertToVersion, hr, hfind]
  · intro r tv hr hfind
    constructor
    · simp [revertToVersion, hr, hfind]
    · intro b hb
      simp only [revertToVersion, hr, hfind]
      exact jget_jset_ne _ _ _ _ (Ne.symm hb)

/-- C3 amended, witness at the concrete store: the reverted-to version
`verTwo` becomes current, `verCur` lands at history position 0, and the
untouched target `"other"` keeps its (absent) result. -/
theorem revertToVersion_amended_witness :
    jget (revertToVersion revertState "b" "v2").results "b"
        = some { boxId := "b", current := verTwo, history := [verCur, verOne] }
      ∧ jget (revertToVersion revertState "b" "v2").results "other"
          = jget revertState.results "other" := by
  have h := (revertToVersion_amended revertState "b" "v2").2
    { boxId := "b", current := verCur, history := [verOne, verTwo] } verTwo
    rfl (by decide)
  refine ⟨?_, h.2 "other" (by decide)⟩
  have h1 := h.1
  simpa [verCur, verOne, verTwo] using h1

/-! ## Claim C6 — `revert` permutes, `complete` adds exactly one version -/

/-- The multiset of versions a target currently owns: current plus history. -/
def versionMultiset (s : GenState) (boxId : String) : Multiset GenerationVersion :=
  match jget s.results boxId with
  | some r => r.current ::ₘ (r.history : Multiset GenerationVersion)
  | none => 0

/-- The total version count `|history| + 1` of a target (0 when the target
has no result yet). -/
def versionCount (s : GenState) (boxId : String) : Nat :=
  match jget s.results boxId with
  | some r => r.history.length + 1
  | none => 0

/-- Removing the first match and re-adding it is a multiset identity when at
most one entry matches. -/
theorem find?_filter_multiset (versionId : String)
    (hist : List GenerationVersion) (tv : GenerationVersion)
    (hfind : hist.find? (fun v => v.id = versionId) = some tv)
    (hcount : hist.countP (fun v => v.id = versionId) ≤ 1) :
    tv ::ₘ (hist.filter (fun v => v.id ≠ versionId) : Multiset GenerationVersion)
      = (hist : Multiset GenerationVersion) := by
  induction hist with
  | nil => simp at hfind
  | cons hd t ih =>
    by_cases hhd : hd.id = versionId
    · have htv : tv = hd := by
        rw [List.find?_cons_of_pos _ (by simp [hhd])] at hfind
        exact (Option.some.inj hfind).symm
      subst htv
      have hcount0 : t.countP (fun v => decide (v.id = versionId)) = 0 := by
        rw [List.countP_cons_of_pos _ _ (by simp [hhd])] at hcount
        omega
      have hfilter : t.filter (fun v => v.id ≠ versionId) = t := by
        rw [List.filter_eq_self]
        intro a ha
        have := List.countP_eq_zero.mp hcount0 a ha
        simpa using this
      rw [List.filter_cons_of_neg (by simp [hhd]), hfilter]
      exact Multiset.cons_coe _ _
    · rw [List.find?_cons_of_neg _ (by simp [hhd])] at hfind
      rw [List.countP_cons_of_neg _ _ (by simp [hhd])] at hcount
      rw [List.filter_cons_of_pos (by simp [hhd])]
      have := ih hfind hcount
      calc tv ::ₘ ((hd :: t.filter (fun v => v.id ≠ versionId) : List _) : Multiset _)
          = hd ::ₘ tv ::ₘ (t.filter (fun v => v.id ≠ versionId) : Multiset _) := by
            rw [← Multiset.cons_coe]
            exact Multiset.cons_swap _ _ _
        _ = hd ::ₘ (t : Multiset _) := by rw [this]
        _ = ((hd :: t : List _) : Multiset _) := by simp

/-- C6: when no two history entries of the target share `versionId` (version
identifiers are fresh `nanoid()`s), `revertToVersion` preserves the version
multiset `{current} ∪ history` of *every* target, and `completeGeneration`
is exactly the operation that grows the target's version count `|history|+1`
by one, leaving every other target's count unchanged. -/
theorem revert_permutes_complete_adds_one (s : GenState) (boxId versionId : String)
    (code prompt provider model newId : String) (ts : Int)
    (hkey : ∀ r, jget s.results boxId = some r →
      r.history.countP (fun v => v.id = versionId) ≤ 1) :
    (∀ b, versionMultiset (revertToVersion s boxId versionId) b
        = versionMultiset s b)
      ∧ versionCount (completeGeneration s boxId code prompt provider model newId ts)
          boxId = versionCount s boxId + 1
      ∧ (∀ b, b ≠ boxId →
          versionCount (completeGeneration s boxId code prompt provider model newId ts)
            b = versionCount s b) := by
  refine ⟨?_, ?_, ?_⟩
  · intro b
    cases hr : jget s.results boxId with
    | none =>
      simp [revertToVersion, hr]
    | some r =>
      cases hfind : r.history.find? (fun v => v.id = versionId) with
      | none =>
        simp [revertToVersion, hr, hfind]
      | some tv =>
        by_cases hb : b = boxId
        · subst hb
          simp only [versionMultiset, revertToVersion, hr, hfind, jget_jset_self]
          have := find?_filter_multiset versionId r.history tv hfind (hkey r hr)
          rw [← Multiset.cons_coe, Multiset.cons_swap, this]
        · simp only [versionMultiset, revertToVersion, hr, hfind]
          rw [jget_jset_ne _ _ _ _ (fun heq => hb heq.symm)]
  · cases hr : jget s.results boxId with
    | none => simp [versionCount, completeGeneration, hr]
    | some r => simp [versionCount, completeGeneration, hr]
  · intro b hb
    cases hr : jget s.results boxId with
    | none =>
      simp only [versionCount, completeGeneration, hr]
      rw [jget_jset_ne _ _ _ _ (fun heq => hb heq.symm)]
    | some r =>
      simp only [versionCount, completeGeneration, hr]
      rw [jget_jset_ne _ _ _ _ (fun heq => hb heq.symm)]

/-- C6 witness, at the concrete store: reverting to `"v2"` keeps the version
multiset of the target (and of an untouched target), completing adds exactly
one to the count. -/
theorem revert_permutes_complete_adds_one_witness :
    versionMultiset (revertToVersion revertState "b" "v2") "b"
        = versionMultiset revertState "b"
      ∧ versionMultiset (revertToVersion revertState "b" "v2") "other"
          = versionMultiset revertState "other"
      ∧ versionCount (completeGeneration revertState "b" "c9" "p9" "openai" "gpt-4o"
          "v9" 9) "b" = versionCount revertState "b" + 1
      ∧ versionCount (completeGeneration revertState "b" "c9" "p9" "openai" "gpt-4o"
          "v9" 9) "other" = versionCount revertState "other" := by
  have h := revert_permutes_complete_adds_one revertState "b" "v2" "c9" "p9"
    "openai" "gpt-4o" "v9" 9 (fun r hr => by
      cases Option.some.inj hr
      decide)
  exact ⟨h.1 "b", h.1 "other", h.2.1, h.2.2 "other" (by decide)⟩

/-! ## Claim C5 — page-level generation maps only the first target -/

/-- The `startGeneration` loop touches only `generating` and
`streamBuffers`. -/
theorem foldl_startGeneration_frame (l : List String) (s : GenState) :
    (l.foldl (fun acc boxId => startGeneration acc boxId) s).results = s.results
      ∧ (l.foldl (fun acc boxId => startGeneration acc boxId) s).requestBoxMap
          = s.requestBoxMap
      ∧ (l.foldl (fun acc boxId => startGeneration acc boxId) s).lastPrompt
          = s.lastPrompt := by
  induction l generalizing s with
  | nil => exact ⟨rfl, rfl, rfl⟩
  | cons a t ih =>
    simpa [startGeneration] using ih (startGeneration s a)

/-- After the `startGeneration` loop, every listed target's `generating`
flag is `true`; unlisted targets are untouched. -/
theorem foldl_startGeneration_generating (l : List String) (s : GenState)
    (k : String) :
    jget (l.foldl (fun acc boxId => startGeneration acc boxId) s).generating k
      = if k ∈ l then some true else jget s.generating k := by
  induction l generalizing s with
  | nil => simp
  | cons a t ih =>
    rw [List.foldl_cons, ih (startGeneration s a)]
    simp only [startGeneration, jget_jset, List.mem_cons]
    by_cases h₁ : k ∈ t
    · simp [h₁]
    · by_cases h₂ : a = k
      · simp [h₁, h₂]
      · simp [h₁, h₂, Ne.symm h₂]

/-- C5: starting page generation for root targets `boxIds` (nonempty, first
identifier truthy) with a fresh outbound `requestId` marks *every* listed
target as generating, but adds exactly one entry to the request map — the
request identifier mapped to the first target only; every other request-map
key (hence every other target's routing) is untouched, and no result is
created. -/
theorem handleGeneratePage_maps_only_first (s : GenState) (boxIds : List String)
    (requestId fid : String) (hhead : boxIds.head? = some fid) (hfid : fid ≠ "")
    (hfresh : jget s.requestBoxMap requestId = none) :
    (∀ id ∈ boxIds,
        jget (handleGeneratePageTargets s boxIds requestId).generating id
          = some true)
      ∧ jget (handleGeneratePageTargets s boxIds requestId).requestBoxMap requestId
          = some fid
      ∧ (∀ k, k ≠ requestId →
          jget (handleGeneratePageTargets s boxIds requestId).requestBoxMap k
            = jget s.requestBoxMap k)
      ∧ (handleGeneratePageTargets s boxIds requestId).requestBoxMap.length
          = s.requestBoxMap.length + 1
      ∧ (handleGeneratePageTargets s boxIds requestId).results = s.results := by
  have hframe := foldl_startGeneration_frame boxIds s
  refine ⟨?_, ?_, ?_, ?_, ?_⟩
  · intro id hid
    simp only [handleGeneratePageTargets, hhead, hfid, ne_eq, not_false_iff,
      if_true, mapRequestToBox]
    rw [foldl_startGeneration_generating]
    simp [hid]
  · simp only [handleGeneratePageTargets, hhead, hfid, ne_eq, not_false_iff,
      if_true, mapRequestToBox]
    rw [hframe.2.1, jget_jset_self]
  · intro k hk
    simp only [handleGeneratePageTargets, hhead, hfid, ne_eq, not_false_iff,
      if_true, mapRequestToBox]
    rw [hframe.2.1, jget_jset_ne _ _ _ _ (Ne.symm hk)]
  · simp only [handleGeneratePageTargets, hhead, hfid, ne_eq, not_false_iff,
      if_true, mapRequestToBox]
    rw [hframe.2.1, length_jset_of_jget_none _ _ _ hfresh]
  · simp only [handleGeneratePageTargets, hhead, hfid, ne_eq, not_false_iff,
      if_true, mapRequestToBox]
    exact hframe.1

/-- C5 witness, at a concrete two-target page: both targets are generating,
the request maps to the first only, the request map has exactly one entry. -/
theorem handleGeneratePage_maps_only_first_witness :
    jget (handleGeneratePageTargets GenState.init ["boxA", "boxB"] "req1").generating
        "boxB" = some true
      ∧ jget (handleGeneratePageTargets GenState.init ["boxA", "boxB"]
          "req1").requestBoxMap "req1" = some "boxA"
      ∧ (handleGeneratePageTargets GenState.init ["boxA", "boxB"]
          "req1").requestBoxMap.length = 1 := by
  have h := handleGeneratePage_maps_only_first GenState.init ["boxA", "boxB"]
    "req1" "boxA" rfl (by decide) rfl
  exact ⟨h.1 "boxB" (by simp), h.2.1, h.2.2.2.1⟩

/-! ## Claim C9 — shared-component summaries: one block per distinct
component, first-occurrence pre-order -/

/-- `List.filterMap` over a cons, phrased with `Option.toList`. -/
theorem filterMap_cons_toList {α β : Type} (g : α → Option β) (x : α) (l : List α) :
    List.filterMap g (x :: l) = (g x).toList ++ List.filterMap g l := by
  cases hg : g x <;> simp [List.filterMap_cons, hg]

/-- The walk of `collectReferencedSharedComponents` is the left fold of
`addSharedRef` over the pre-order reference sequence. -/
theorem collectWalk_eq_foldl (sc : JsRecord SharedComponent)
    (allBoxes : JsRecord Box) :
    ∀ fuel box acc,
      collectWalk sc allBoxes fuel acc box
        = (preorderSharedRefs allBoxes fuel box).foldl (addSharedRef sc) acc := by
  intro fuel
  induction fuel with
  | zero => intro box acc; rfl
  | succ n ih =>
    have hchild : ∀ (cids : List String) (acc : List String × List SharedComponent),
        List.foldl (fun acc childId =>
            match jget allBoxes childId with
            | some child => collectWalk sc allBoxes n acc child
            | none => acc) acc cids
          = List.foldl (addSharedRef sc) acc
              (cids.flatMap (fun childId =>
                match jget allBoxes childId with
                | some child => preorderSharedRefs allBoxes n child
                | none => [])) := by
      intro cids
      induction cids with
      | nil => intro acc; rfl
      | cons cid t iht =>
        intro acc
        rw [List.foldl_cons, List.flatMap_cons, List.foldl_append]
        cases hc : jget allBoxes cid with
        | some child =>
          simp only [hc]
          rw [ih child acc]
          exact iht _
        | none =>
          simp only [hc]
          exact iht acc
    intro box acc
    simp only [collectWalk, preorderSharedRefs]
    rw [List.foldl_append]
    cases hsc : box.sharedComponentId with
    | none => exact hchild box.childIds acc
    | some scid =>
      by_cases hne : scid = ""
      · subst hne
        simp only [ne_eq, not_true_eq_false, false_and, if_false]
        exact hchild box.childIds acc
      · have hacc : (if scid ≠ "" ∧ scid ∉ acc.1
            then (acc.1 ++ [scid], acc.2 ++ (jget sc scid).toList) else acc)
            = addSharedRef sc acc scid := by
          by_cases hmem : scid ∈ acc.1
          · simp [addSharedRef, hmem]
          · simp [addSharedRef, hmem, hne]
        simp only [ne_eq, hne, not_false_iff, true_and] at hacc ⊢
        rw [hacc]
        exact hchild box.childIds _

/-- Folding the walk over a list of root boxes is the fold of `addSharedRef`
over the concatenated pre-order reference sequences. -/
theorem foldl_collectWalk_eq (sc : JsRecord SharedComponent)
    (allBoxes : JsRecord Box) (fuel : Nat) :
    ∀ (boxes : List Box) (acc : List String × List SharedComponent),
      List.foldl (fun acc box => collectWalk sc allBoxes fuel acc box) acc boxes
        = List.foldl (addSharedRef sc) acc
            (boxes.flatMap (preorderSharedRefs allBoxes fuel)) := by
  intro boxes
  induction boxes with
  | nil => intro acc; rfl
  | cons box t ih =>
    intro acc
    rw [List.foldl_cons, List.flatMap_cons, List.foldl_append,
      collectWalk_eq_foldl]
    exact ih _

/-- The fold of `addSharedRef` computes first-occurrence deduplication of
the reference keys and resolves each new key through the component
record. -/
theorem foldl_addSharedRef_eq (sc : JsRecord SharedComponent) :
    ∀ (l : List String) (seen : List String) (res : List SharedComponent),
      List.foldl (addSharedRef sc) (seen, res) l
        = (seen ++ dedupFrom seen l,
           res ++ (dedupFrom seen l).filterMap (jget sc)) := by
  intro l
  induction l with
  | nil => intro seen res; simp [dedupFrom]
  | cons x t ih =>
    intro seen res
    rw [List.foldl_cons]
    by_cases hmem : x ∈ seen
    · simp only [dedupFrom, hmem, if_true]
      have hstep : addSharedRef sc (seen, res) x = (seen, res) := by
        simp [addSharedRef, hmem]
      rw [hstep, ih]
    · simp only [dedupFrom, hmem, if_false]
      have hstep : addSharedRef sc (seen, res) x
          = (seen ++ [x], res ++ (jget sc x).toList) := by
        simp [addSharedRef, hmem]
      rw [hstep, ih]
      simp [filterMap_cons_toList, List.append_assoc]

/-- First-occurrence deduplication yields no duplicates and avoids the
already-seen identifiers. -/
theorem dedupFrom_nodup_disjoint :
    ∀ (l seen : List String),
      (dedupFrom seen l).Nodup ∧ ∀ x ∈ dedupFrom seen l, x ∉ seen := by
  intro l
  induction l with
  | nil => intro seen; simp [dedupFrom]
  | cons x t ih =>
    intro seen
    by_cases hmem : x ∈ seen
    · simpa [dedupFrom, hmem] using ih seen
    · simp only [dedupFrom, hmem, if_false]
      obtain ⟨hnd, hdisj⟩ := ih (seen ++ [x])
      refine ⟨List.nodup_cons.mpr ⟨?_, hnd⟩, ?_⟩
      · intro hx
        exact hdisj x hx (by simp)
      · intro y hy
        rcases List.mem_cons.mp hy with rfl | hy'
        · exact hmem
        · intro hyseen
          exact hdisj y hy' (by simp [hyseen])

/-- C9: for every page, box record and shared-component record (and any
recursion bound), the components collected for the shared-components section
of `buildPagePrompt` are exactly the *first-occurrence deduplication* — by
component identifier — of the pre-order reference sequence of the page's
root boxes sorted by `order`, each distinct identifier resolved once; the
deduplicated key list has no duplicates, so a component instantiated by
several boxes contributes exactly one summary block. -/
theorem pagePrompt_sharedComponents_dedup (fuel : Nat) (page : Page)
    (allBoxes : JsRecord Box) (sc : JsRecord SharedComponent) :
    collectReferencedSharedComponents fuel (pageTopLevelBoxes page allBoxes)
        allBoxes (some sc)
        = (dedupFirstOccurrence ((pageTopLevelBoxes page allBoxes).flatMap
            (preorderSharedRefs allBoxes fuel))).filterMap (jget sc)
      ∧ (dedupFirstOccurrence ((pageTopLevelBoxes page allBoxes).flatMap
          (preorderSharedRefs allBoxes fuel))).Nodup := by
  constructor
  · show (List.foldl _ ([], []) _).2 = _
    rw [foldl_collectWalk_eq, foldl_addSharedRef_eq]
    simp [dedupFirstOccurrence]
  · exact (dedupFrom_nodup_disjoint _ []).1

/-! ## Claim C4 — empty streaming response and the non-streaming fallback -/

/-- One SSE line either leaves the emission trace and the accumulated
content alone, or appends the same delta to both. -/
theorem processSSELine_cases (pe : String → Option SSEEvent) (acc : StreamAcc)
    (line : String) :
    ((processSSELine pe acc line).emitted = acc.emitted
        ∧ (processSSELine pe acc line).fullContent = acc.fullContent)
      ∨ ∃ d, (processSSELine pe acc line).emitted = acc.emitted ++ [d]
          ∧ (processSSELine pe acc line).fullContent = acc.fullContent ++ d := by
  simp only [processSSELine]
  split
  · exact Or.inl ⟨rfl, rfl⟩
  · split
    · exact Or.inl ⟨rfl, rfl⟩
    · split
      · exact Or.inl ⟨rfl, rfl⟩
      · rename_i ev hev
        rcases hdelta : ev.delta with _ | d
        · rcases husage : ev.usage with _ | u
          · simp [hdelta, husage]
          · simp [hdelta, husage]
        · by_cases hne : d = ""
          · subst hne
            rcases husage : ev.usage with _ | u
            · simp [hdelta, husage]
            · simp [hdelta, husage]
          · rcases husage : ev.usage with _ | u
            · simp only [hdelta, husage, ne_eq, hne, not_false_iff, if_true]
              exact Or.inr ⟨d, rfl, rfl⟩
            · simp only [hdelta, husage, ne_eq, hne, not_false_iff, if_true]
              exact Or.inr ⟨d, rfl, rfl⟩

/-- The read-loop invariant: a state that has emitted nothing has
accumulated no content; one SSE line preserves it. -/
theorem processSSELine_empty_invariant (pe : String → Option SSEEvent)
    (acc : StreamAcc) (line : String)
    (h : acc.emitted = [] → acc.fullContent = "") :
    (processSSELine pe acc line).emitted = []
      → (processSSELine pe acc line).fullContent = "" := by
  intro hemp
  rcases processSSELine_cases pe acc line with ⟨he, hf⟩ | ⟨d, he, hf⟩
  · rw [hf]
    exact h (he ▸ hemp)
  · rw [he] at hemp
    simp at hemp

/-- The invariant survives a whole list of SSE lines. -/
theorem foldl_processSSELine_empty_invariant (pe : String → Option SSEEvent)
    (lines : List String) :
    ∀ acc : StreamAcc, (acc.emitted = [] → acc.fullContent = "")
      → ((lines.foldl (processSSELine pe) acc).emitted = []
          → (lines.foldl (processSSELine pe) acc).fullContent = "") := by
  induction lines with
  | nil => intro acc h; exact h
  | cons l t ih =>
    intro acc h
    exact ih _ (processSSELine_empty_invariant pe acc l h)

/-- The invariant survives one decoded network chunk. -/
theorem processSSEChunk_empty_invariant (pe : String → Option SSEEvent)
    (acc : StreamAcc) (chunk : String)
    (h : acc.emitted = [] → acc.fullContent = "") :
    (processSSEChunk pe acc chunk).emitted = []
      → (processSSEChunk pe acc chunk).fullContent = "" := by
  unfold processSSEChunk
  exact foldl_processSSELine_empty_invariant pe _ _ h

/-- The invariant over the full stream. -/
theorem foldl_processSSEChunk_empty_invariant (pe : String → Option SSEEvent)
    (chunks : List String) :
    ∀ acc : StreamAcc, (acc.emitted = [] → acc.fullContent = "")
      → ((chunks.foldl (processSSEChunk pe) acc).emitted = []
          → (chunks.foldl (processSSEChunk pe) acc).fullContent = "") := by
  induction chunks with
  | nil => intro acc h; exact h
  | cons c t ih =>
    intro acc h
    exact ih _ (processSSEChunk_empty_invariant pe acc c h)

/-- Stripping fences from the empty accumulation yields the empty string. -/
theorem stripCodeFences_empty : stripCodeFences "" = "" := by decide

/-- C4 amended: a streaming `OpenAIProvider.generate` call (chunk callback
present, `stream` not disabled, 2xx response) whose stream closes after
yielding zero textual deltas performs **no** non-streaming fallback call —
the call trace is exactly the one streaming POST — and resolves successfully
with empty code (and whatever usage the stream reported) instead of raising
an `EmptyResponseError`; only the Gemini provider implements an empty-stream
fallback. -/
theorem openAIGenerate_empty_stream_no_fallback (req : GenerateRequest)
    (pe : String → Option SSEEvent) (resp : FetchResponse)
    (hstream : req.stream ≠ some false) (hok : resp.ok = true)
    (hempty : (openAIGenerate req true pe resp).emitted = []) :
    (openAIGenerate req true pe resp).calls
        = [{ stream := true
             model := if req.model ≠ "" then req.model else openAIDefaultModel }]
      ∧ ((openAIGenerate req true pe resp).calls.filter (fun c => !c.stream)) = []
      ∧ ∃ u, (openAIGenerate req true pe resp).result
          = .ok { code := "", usage := u } := by
  have hgen : openAIGenerate req true pe resp
      = { result := .ok (handleStream pe resp.streamChunks).1
          calls := [{ stream := true
                      model := if req.model ≠ "" then req.model
                               else openAIDefaultModel }]
          emitted := (handleStream pe resp.streamChunks).2 } := by
    unfold openAIGenerate
    simp [hstream, hok]
  rw [hgen] at hempty ⊢
  refine ⟨rfl, by simp, ?_⟩
  have hfull : (resp.streamChunks.foldl (processSSEChunk pe)
      { buffer := "", fullContent := "", usage := none, emitted := [] }).fullContent
      = "" := by
    apply foldl_processSSEChunk_empty_invariant pe resp.streamChunks _
      (fun _ => rfl)
    simpa [handleStream] using hempty
  refine ⟨(resp.streamChunks.foldl (processSSEChunk pe)
      { buffer := "", fullContent := "", usage := none, emitted := [] }).usage, ?_⟩
  simp only [handleStream, hfull, stripCodeFences_empty]

/-- A concrete streaming request: chunk callback present, streaming not
disabled, unset model string. -/
def emptyStreamRequest : GenerateRequest :=
  { prompt := "p", systemPrompt := "s", model := "", stream := none }

/-- A concrete 200 response whose stream closes immediately, yielding zero
deltas. -/
def emptyStreamResponse : FetchResponse := { ok := true, status := 200 }

/-- C4 counterexample: on a streaming call whose response stream closes
after zero textual deltas, `OpenAIProvider.generate` performs **zero**
non-streaming calls — not exactly one — and resolves with
`{code: '', usage: undefined}`; no `EmptyResponseError` (or any error) is
raised and no fallback request is issued. -/
theorem openAIGenerate_no_fallback_cex :
    (openAIGenerate emptyStreamRequest true (fun _ => none)
        emptyStreamResponse).emitted = []
      ∧ (openAIGenerate emptyStreamRequest true (fun _ => none)
          emptyStreamResponse).result = .ok { code := "", usage := none }
      ∧ ((openAIGenerate emptyStreamRequest true (fun _ => none)
          emptyStreamResponse).calls.filter (fun c => !c.stream)).length = 0
      ∧ ((openAIGenerate emptyStreamRequest true (fun _ => none)
          emptyStreamResponse).calls.filter (fun c => !c.stream)).length ≠ 1
      ∧ (openAIGenerate emptyStreamRequest true (fun _ => none)
          emptyStreamResponse).calls = [{ stream := true, model := "gpt-4o" }] := by
  refine ⟨by decide, by decide, by decide, by decide, by decide⟩

/-- C4 amended, witness at the concrete empty stream: the call trace is the
single streaming POST, with no non-streaming fallback in it. -/
theorem openAIGenerate_empty_stream_no_fallback_witness :
    (openAIGenerate emptyStreamRequest true (fun _ => none)
        emptyStreamResponse).calls
        = [{ stream := true
             model := if emptyStreamRequest.model ≠ "" then emptyStreamRequest.model
                      else openAIDefaultModel }]
      ∧ ((openAIGenerate emptyStreamRequest true (fun _ => none)
          emptyStreamResponse).calls.filter (fun c => !c.stream)) = [] := by
  have h := openAIGenerate_empty_stream_no_fallback emptyStreamRequest
    (fun _ => none) emptyStreamResponse (by decide) rfl (by decide)
  exact ⟨h.1, h.2.1⟩
